import Mathlib

/-!
# Verification of the NDN client library

Shallow embedding of the Go NDN library (TLV codec in `tlv.go`, the Face
engine in `face.go`, the continuation state machine and the key subsystem)
together with proofs about its claimed properties.

Bytes are modelled as `Nat` values below 256, byte strings as `List Nat`,
and Go's `uint64` arithmetic as `Nat` with explicit `% 2 ^ 64` where the
source can overflow.
-/

namespace NdnProof

/-! ## Big-endian fixed-width integers

`binary.Write(buf, binary.BigEndian, uintN(v))` emits the low `N` bits of
`v` most-significant byte first; `binary.Read` folds them back.  `beBytes w v`
is that byte string for a `w`-byte width, `beRead` the fold. -/

/-- The `w`-byte big-endian encoding of `v` (the low `8*w` bits of `v`,
most significant byte first), as written by `binary.Write` in `tlv.go`. -/
def beBytes : Nat → Nat → List Nat
  | 0, _ => []
  | w + 1, v => beBytes w (v / 256) ++ [v % 256]

/-- Fold a big-endian byte string back into the integer it denotes,
as `binary.Read` does. -/
def beRead (bs : List Nat) : Nat :=
  bs.foldl (fun acc b => acc * 256 + b) 0

/-- `binary.Read` of a `w`-byte big-endian integer from the front of a
buffer: fails (like `io.ErrUnexpectedEOF`) when fewer than `w` bytes
remain, otherwise returns the integer and the remaining bytes. -/
def readFixed (w : Nat) (bs : List Nat) : Option (Nat × List Nat) :=
  if bs.length < w then none else some (beRead (bs.take w), bs.drop w)

theorem beBytes_length (w v : Nat) : (beBytes w v).length = w := by
  induction w generalizing v with
  | zero => rfl
  | succ w ih => simp [beBytes, ih]

theorem beRead_append_singleton (bs : List Nat) (b : Nat) :
    beRead (bs ++ [b]) = beRead bs * 256 + b := by
  simp [beRead, List.foldl_append]

theorem beRead_beBytes (w v : Nat) : beRead (beBytes w v) = v % 256 ^ w := by
  induction w generalizing v with
  | zero => simp [beBytes, beRead]; omega
  | succ w ih =>
      rw [beBytes, beRead_append_singleton, ih, pow_succ,
        mul_comm (256 ^ w) 256, Nat.mod_mul]
      ring

theorem readFixed_beBytes (w v : Nat) (rest : List Nat) :
    readFixed w (beBytes w v ++ rest) = some (v % 256 ^ w, rest) := by
  unfold readFixed
  rw [if_neg (by simp [beBytes_length]), List.take_left' (beBytes_length w v),
    List.drop_left' (beBytes_length w v), beRead_beBytes]

/-! ## The TLV variable-width integer (`tlv.go`, `writeByte` / `readByte`)

`writeByte` picks the smallest width whose range covers `v`
(`v > math.MaxUint32` ⟶ `0xFF` + 8 bytes, `v > math.MaxUint16` ⟶ `0xFE` +
4 bytes, `v > math.MaxUint8-3` ⟶ `0xFD` + 2 bytes, else the single byte
`uint8(v)`); `readByte` reads one byte and dispatches on the three
sentinels. -/

/-- `writeByte` from `tlv.go`: the variable-width encoding of the
`uint64` value `v`. -/
def writeByte (v : Nat) : List Nat :=
  if v > 4294967295 then 255 :: beBytes 8 v
  else if v > 65535 then 254 :: beBytes 4 v
  else if v > 252 then 253 :: beBytes 2 v
  else [v % 256]

/-- `readByte` from `tlv.go`: read one byte; `0xFF`/`0xFE`/`0xFD` announce a
64/32/16-bit big-endian integer, any other byte is the value itself.
`none` models the `error` return (buffer exhausted). -/
def readByte (bs : List Nat) : Option (Nat × List Nat) :=
  match bs with
  | [] => none
  | b :: rest =>
    if b = 255 then readFixed 8 rest
    else if b = 254 then readFixed 4 rest
    else if b = 253 then readFixed 2 rest
    else some (b, rest)

theorem readByte_writeByte (v : Nat) (h : v < 2 ^ 64) (rest : List Nat) :
    readByte (writeByte v ++ rest) = some (v, rest) := by
  unfold writeByte
  by_cases h32 : v > 4294967295
  · simp only [if_pos h32, List.cons_append, readByte, if_pos rfl,
      readFixed_beBytes]
    norm_num at h ⊢
    omega
  · rw [if_neg h32]
    by_cases h16 : v > 65535
    · simp only [if_pos h16, List.cons_append, readByte, readFixed_beBytes]
      norm_num
      omega
    · rw [if_neg h16]
      by_cases h8 : v > 252
      · simp only [if_pos h8, List.cons_append, readByte, readFixed_beBytes]
        norm_num
        omega
      · rw [if_neg h8]
        have hv : v % 256 = v := Nat.mod_eq_of_lt (by omega)
        simp only [List.cons_append, List.nil_append, readByte, hv]
        rw [if_neg (by omega), if_neg (by omega), if_neg (by omega)]

/-- C5 theorem body: round-trip plus minimal-width shape. -/
theorem writeByte_minimal (v : Nat) (h : v < 2 ^ 64) :
    readByte (writeByte v) = some (v, []) ∧
    (v ≤ 252 → writeByte v = [v]) ∧
    (253 ≤ v → v ≤ 65535 →
      writeByte v = 253 :: beBytes 2 v ∧ (writeByte v).length = 3) ∧
    (65536 ≤ v → v ≤ 4294967295 →
      writeByte v = 254 :: beBytes 4 v ∧ (writeByte v).length = 5) ∧
    (4294967296 ≤ v →
      writeByte v = 255 :: beBytes 8 v ∧ (writeByte v).length = 9) := by
  refine ⟨?_, ?_, ?_, ?_, ?_⟩
  · have := readByte_writeByte v h []
    simpa using this
  · intro hle
    unfold writeByte
    rw [if_neg (by omega), if_neg (by omega), if_neg (by omega)]
    rw [Nat.mod_eq_of_lt (by omega)]
  · intro h1 h2
    unfold writeByte
    rw [if_neg (by omega), if_neg (by omega), if_pos (by omega)]
    exact ⟨rfl, by simp [beBytes_length]⟩
  · intro h1 h2
    unfold writeByte
    rw [if_neg (by omega), if_pos (by omega)]
    exact ⟨rfl, by simp [beBytes_length]⟩
  · intro h1
    unfold writeByte
    rw [if_pos (by omega)]
    exact ⟨rfl, by simp [beBytes_length]⟩

/-! ## The TLV node (`tlv.go`, `TLV` / `Decode` / `Len` / `Encode`)

The Go struct field `Type` is spelled `typ` here (`Type` is reserved in
Lean); `Value` and `Children` keep their names in lowercase. -/

/-- The `TLV` struct from `tlv.go`: `{Type uint64, Value []byte,
Children []TLV}`. -/
structure TLV where
  typ : Nat
  value : List Nat
  children : List TLV

/-- The Go conversion `int(v)` of a `uint64` value to a 64-bit signed
`int`: two's-complement wrap — values with the top bit set become
negative. -/
def intOfUint64 (v : Nat) : Int :=
  if v % 2 ^ 64 < 2 ^ 63 then ((v % 2 ^ 64 : Nat) : Int)
  else ((v % 2 ^ 64 : Nat) : Int) - 2 ^ 64

/-- `bytes.Buffer.Next n` for an `int` count `n`: a non-negative count is
clamped to the buffer length and that many bytes are handed out with the
rest kept; a negative count escapes the clamp (`n > m` is false) and the
slice expression `b.buf[b.off : b.off+n]` panics — modelled as `none`. -/
def bufferNext (n : Int) (bs : List Nat) : Option (List Nat × List Nat) :=
  if n < 0 then none
  else some (bs.take n.toNat, bs.drop n.toNat)

/-- The result of a `TLV.Decode` call: a node plus the unconsumed
remainder, a Go `error` return, or a runtime crash (the slice-bounds panic
inside `bytes.Buffer.Next`), which is not an error return. -/
inductive DecodeResult where
  | ok : TLV → List Nat → DecodeResult
  | error : String → DecodeResult
  | crash : DecodeResult

/-- `TLV.Decode` from `tlv.go`: read the type and length fields with
`readByte`, then execute `this.Value = buf.Next(int(l))` — the `uint64`
length goes through `int(l)`, so a declared length `≥ 2^63` wraps negative
and `bytes.Buffer.Next` panics, while a smaller declared length is merely
clamped to the bytes remaining — and return the unconsumed remainder. -/
def TLV.Decode (raw : List Nat) : DecodeResult :=
  match readByte raw with
  | none => .error "EOF"
  | some (t, r1) =>
    match readByte r1 with
    | none => .error "EOF"
    | some (l, r2) =>
      match bufferNext (intOfUint64 l) r2 with
      | none => .crash
      | some (v, rest) => .ok { typ := t, value := v, children := [] } rest

/-- `countBytes` from `tlv.go`: the width of the variable-width encoding
of `v`. -/
def countBytes (v : Nat) : Nat :=
  if v > 4294967295 then 9
  else if v > 65535 then 5
  else if v > 252 then 3
  else 1

/-- The coexistence error string `VALUE_CHILDREN_COEXIST` from the source. -/
def VALUE_CHILDREN_COEXIST : String := "value and children coexist"

mutual

/-- `TLV.Len` from `tlv.go`: a node with a non-empty `Value` reports that
value's byte length; otherwise the sum over children of encoded type
width + encoded length width + child length. -/
def TLV.Len : TLV → Nat
  | { typ := _, value := v, children := cs } =>
    if v.length = 0 then lenChildren cs else v.length

/-- The `for _, c := range this.Children` accumulation inside `TLV.Len`. -/
def lenChildren : List TLV → Nat
  | [] => 0
  | c :: cs => countBytes c.typ + countBytes c.Len + c.Len + lenChildren cs

end

mutual

/-- `TLV.Encode` from `tlv.go`: write the type and length fields, fail with
`VALUE_CHILDREN_COEXIST` when both `Value` and `Children` are non-empty,
then append either the concatenated child encodings (empty `Value`) or the
`Value` bytes.  An error discards the buffer, so the error cases return no
bytes. -/
def TLV.Encode : TLV → Except String (List Nat)
  | { typ := t, value := v, children := cs } =>
    if v.length ≠ 0 ∧ cs.length ≠ 0 then
      .error VALUE_CHILDREN_COEXIST
    else if v.length = 0 then
      match encodeChildren cs with
      | .error e => .error e
      | .ok b => .ok (writeByte t ++ writeByte (TLV.Len ⟨t, v, cs⟩) ++ b)
    else .ok (writeByte t ++ writeByte (TLV.Len ⟨t, v, cs⟩) ++ v)

/-- The `for _, c := range this.Children` loop inside `TLV.Encode`:
encode each child in order, propagating the first error. -/
def encodeChildren : List TLV → Except String (List Nat)
  | [] => .ok []
  | c :: cs =>
    match c.Encode with
    | .error e => .error e
    | .ok b =>
      match encodeChildren cs with
      | .error e => .error e
      | .ok bs => .ok (b ++ bs)

end

/-! ## Well-formed TLV trees -/

mutual

/-- A TLV tree in which every node has either an empty `Value` or an empty
`Children` list (the invariant of spec §3, checked recursively). -/
def TLV.WellFormed : TLV → Bool
  | { typ := _, value := v, children := cs } =>
    (v.length = 0 || cs.length = 0) && childrenWellFormed cs

/-- `TLV.WellFormed` on each member of a child list. -/
def childrenWellFormed : List TLV → Bool
  | [] => true
  | c :: cs => c.WellFormed && childrenWellFormed cs

end

mutual

theorem encode_ok_of_wellFormed (n : TLV) (h : TLV.WellFormed n = true) :
    ∃ b, TLV.Encode n = .ok b := by
  match n with
  | { typ := t, value := v, children := cs } =>
    rw [TLV.WellFormed] at h
    simp only [Bool.and_eq_true, Bool.or_eq_true, decide_eq_true_eq] at h
    obtain ⟨hvc, hcs⟩ := h
    obtain ⟨b, hb⟩ := encodeChildren_ok_of_wellFormed cs hcs
    rw [TLV.Encode]
    rcases hvc with hv | hc
    · rw [if_neg (by simp [hv]), if_pos hv, hb]
      exact ⟨_, rfl⟩
    · by_cases hv : v.length = 0
      · rw [if_neg (by simp [hv]), if_pos hv, hb]
        exact ⟨_, rfl⟩
      · rw [if_neg (by simp [hc]), if_neg hv]
        exact ⟨_, rfl⟩

theorem encodeChildren_ok_of_wellFormed (cs : List TLV)
    (h : childrenWellFormed cs = true) : ∃ b, encodeChildren cs = .ok b := by
  match cs with
  | [] => exact ⟨[], rfl⟩
  | c :: cs' =>
    rw [childrenWellFormed] at h
    simp only [Bool.and_eq_true] at h
    obtain ⟨b, hb⟩ := encode_ok_of_wellFormed c h.1
    obtain ⟨bs, hbs⟩ := encodeChildren_ok_of_wellFormed cs' h.2
    rw [encodeChildren, hb, hbs]
    exact ⟨_, rfl⟩

end

/-! ## Claims C5, C6, C7 -/

/-- Claim C5: for every unsigned 64-bit integer `v`, `readByte` after
`writeByte` yields `v` back, and the encoding uses the minimal width —
a single byte for `v ≤ 252`, the `0xFD` sentinel plus a big-endian 16-bit
integer for `253 ≤ v ≤ 65535`, the `0xFE` sentinel plus 32 bits up to
`2^32 - 1`, and the `0xFF` sentinel plus 64 bits above that. -/
theorem c5_varint_roundtrip_minimal (v : Nat) (h : v < 2 ^ 64) :
    readByte (writeByte v) = some (v, []) ∧
    (v ≤ 252 → writeByte v = [v]) ∧
    (253 ≤ v → v ≤ 65535 →
      writeByte v = 253 :: beBytes 2 v ∧ (writeByte v).length = 3) ∧
    (65536 ≤ v → v ≤ 4294967295 →
      writeByte v = 254 :: beBytes 4 v ∧ (writeByte v).length = 5) ∧
    (4294967296 ≤ v →
      writeByte v = 255 :: beBytes 8 v ∧ (writeByte v).length = 9) :=
  writeByte_minimal v h

/-- Witness for C5 at `v = 253`: the first value that needs the `0xFD`
two-byte form. -/
theorem c5_varint_roundtrip_minimal_witness :
    readByte (writeByte 253) = some (253, []) ∧
    (253 ≤ 252 → writeByte 253 = [253]) ∧
    (253 ≤ 253 → 253 ≤ 65535 →
      writeByte 253 = 253 :: beBytes 2 253 ∧ (writeByte 253).length = 3) ∧
    (65536 ≤ 253 → 253 ≤ 4294967295 →
      writeByte 253 = 254 :: beBytes 4 253 ∧ (writeByte 253).length = 5) ∧
    (4294967296 ≤ 253 →
      writeByte 253 = 255 :: beBytes 8 253 ∧ (writeByte 253).length = 9) :=
  c5_varint_roundtrip_minimal 253 (by decide)

/-- Claim C6 counterexample: the frame `[1, 5, 2]` declares a 5-byte value
but only 1 byte remains; `TLV.Decode` nevertheless succeeds, returning a
node with the short value `[2]` and no error — the claim that every
truncated frame is rejected with an error is false. -/
theorem c6_decode_truncated_counterexample :
    TLV.Decode [1, 5, 2] =
      .ok { typ := 1, value := [2], children := [] } [] := by
  rfl

/-- Claim C6 (amended): `TLV.Decode` returns an error only when the type or
length field itself cannot be read.  On a truncated frame — a declared
length `l` (a `uint64`, so `l < 2^64`) exceeding the remaining bytes — it
never returns an error: for `l < 2^63` it returns, with no error, a node
whose `Value` is just those remaining bytes and an empty remainder; for
`l ≥ 2^63` the conversion `int(l)` is negative and `bytes.Buffer.Next`
panics — a crash, not an error return. -/
theorem c6_decode_truncated_short_value (raw r1 r2 : List Nat) (t l : Nat)
    (h1 : readByte raw = some (t, r1)) (h2 : readByte r1 = some (l, r2))
    (h3 : r2.length < l) :
    (l < 2 ^ 63 →
      TLV.Decode raw = .ok { typ := t, value := r2, children := [] } []) ∧
    (2 ^ 63 ≤ l → l < 2 ^ 64 → TLV.Decode raw = .crash) := by
  constructor
  · intro hl
    have hm : l % 2 ^ 64 = l := Nat.mod_eq_of_lt (by omega)
    simp only [TLV.Decode, h1, h2, intOfUint64, hm, if_pos hl, bufferNext]
    rw [if_neg (by omega), Int.toNat_natCast,
      List.take_of_length_le (le_of_lt h3),
      List.drop_of_length_le (le_of_lt h3)]
  · intro hl hl64
    have hm : l % 2 ^ 64 = l := Nat.mod_eq_of_lt hl64
    have hne : ¬ l % 2 ^ 64 < 2 ^ 63 := by omega
    simp only [TLV.Decode, h1, h2, intOfUint64, if_neg hne, hm, bufferNext]
    rw [if_pos (by omega)]

/-- Witness for the amended C6 at the 10-byte frame that declares a
`2^63`-byte value with nothing left in the buffer: the negative `int(l)`
crashes `bytes.Buffer.Next` instead of producing an error or a node. -/
theorem c6_decode_truncated_short_value_witness :
    TLV.Decode [1, 255, 128, 0, 0, 0, 0, 0, 0, 0] = DecodeResult.crash :=
  (c6_decode_truncated_short_value [1, 255, 128, 0, 0, 0, 0, 0, 0, 0]
    [255, 128, 0, 0, 0, 0, 0, 0, 0] [] 1 (2 ^ 63) (by decide) (by decide)
    (by decide)).2 (by decide) (by decide)

/-- Claim C7 counterexample: the node `⟨1, [], [⟨2, [2], [⟨3, [3], []⟩]⟩]⟩`
has an empty `Value` (so at most one of `Value`/`Children` is non-empty),
yet `Encode` returns the coexistence error, propagated from its child —
the claim that such nodes never see this error is false. -/
theorem c7_encode_coexist_counterexample :
    (TLV.mk 1 [] [TLV.mk 2 [2] [TLV.mk 3 [3] []]]).value.length = 0 ∧
    TLV.Encode (TLV.mk 1 [] [TLV.mk 2 [2] [TLV.mk 3 [3] []]]) =
      .error VALUE_CHILDREN_COEXIST := by
  constructor
  · rfl
  · rfl

/-- Claim C7 (amended): a node whose own `Value` and `Children` are both
non-empty always encodes to the coexistence error with no bytes, and a node
whose whole tree satisfies the either-Value-or-Children invariant encodes
without any error; the error can still surface for a well-shaped root whose
descendant violates the invariant (see the counterexample). -/
theorem c7_encode_coexist (n : TLV) :
    (n.value.length ≠ 0 → n.children.length ≠ 0 →
      TLV.Encode n = .error VALUE_CHILDREN_COEXIST) ∧
    (TLV.WellFormed n = true → ∃ b, TLV.Encode n = .ok b) := by
  constructor
  · intro hv hc
    match n with
    | { typ := t, value := v, children := cs } =>
      rw [TLV.Encode, if_pos ⟨hv, hc⟩]
  · exact encode_ok_of_wellFormed n

/-- Witness for the amended C7 at a violating node and a well-formed node. -/
theorem c7_encode_coexist_witness :
    ((TLV.mk 4 [1] [TLV.mk 5 [2] []]).value.length ≠ 0 →
      (TLV.mk 4 [1] [TLV.mk 5 [2] []]).children.length ≠ 0 →
      TLV.Encode (TLV.mk 4 [1] [TLV.mk 5 [2] []]) =
        .error VALUE_CHILDREN_COEXIST) ∧
    (TLV.WellFormed (TLV.mk 4 [1] [TLV.mk 5 [2] []]) = true →
      ∃ b, TLV.Encode (TLV.mk 4 [1] [TLV.mk 5 [2] []]) = .ok b) :=
  c7_encode_coexist (TLV.mk 4 [1] [TLV.mk 5 [2] []])

/-! ## Names and packets (`face.go` and the packet model)

A Name is an ordered list of opaque byte-string components (spec §3).
Only the packet fields the Face engine logic reads are carried:
`Interest.Name`/`Interest.LifeTime` and
`Data.Name`/`Data.MetaInfo.FreshnessPeriod`/`Data.MetaInfo.FinalBlockId`/
`Data.Content`; selectors, nonce and signature fields are never consulted
by `SendInterest`/`recvData`/`dial` and are omitted. -/

abbrev Component := List Nat

abbrev Name := List Component

/-- A pending response sink: `chan *Data` values are identified by an id. -/
abbrev Sink := Nat

structure MetaInfo where
  contentType : Nat
  freshnessPeriod : Nat
  finalBlockId : Component
  deriving DecidableEq

structure Data where
  name : Name
  metaInfo : MetaInfo
  content : List Nat
  deriving DecidableEq

structure Interest where
  name : Name
  lifeTime : Nat
  deriving DecidableEq

/-! ## The exact-match concurrent map

`face.go` keeps the PIT in an `lpm.Matcher` and the Content Store in an
`exact.Store` (external collaborator packages).  Per spec §5/§9 both are
used as an associative structure keyed by Name with atomic
read-modify-or-delete per key, and Data is resolved against the PIT by the
exact Name used at send time (spec §9, observed behavior).  They are
modelled as association lists keyed by `Name`:`Update` becomes lookup,
transform, and store/delete, inlined at each call site below. -/

def mapFind? {V : Type} : List (Name × V) → Name → Option V
  | [], _ => none
  | (k', v) :: rest, k => if k' = k then some v else mapFind? rest k

def mapErase {V : Type} : List (Name × V) → Name → List (Name × V)
  | [], _ => []
  | (k', v) :: rest, k =>
    if k' = k then mapErase rest k else (k', v) :: mapErase rest k

def mapSet {V : Type} : List (Name × V) → Name → V → List (Name × V)
  | [], k, v => [(k, v)]
  | (k', v') :: rest, k, v =>
    if k' = k then (k, v) :: rest else (k', v') :: mapSet rest k v

theorem mapFind?_mapSet_self {V : Type} (m : List (Name × V)) (k : Name)
    (v : V) : mapFind? (mapSet m k v) k = some v := by
  induction m with
  | nil => simp [mapSet, mapFind?]
  | cons p rest ih =>
      obtain ⟨k', v'⟩ := p
      by_cases h : k' = k
      · simp [mapSet, if_pos h, mapFind?]
      · simp [mapSet, if_neg h, mapFind?, if_neg h, ih]

theorem mapFind?_mapErase_self {V : Type} (m : List (Name × V)) (k : Name) :
    mapFind? (mapErase m k) k = none := by
  induction m with
  | nil => simp [mapErase, mapFind?]
  | cons p rest ih =>
      obtain ⟨k', v'⟩ := p
      by_cases h : k' = k
      · simp [mapErase, if_pos h, ih]
      · simp [mapErase, if_neg h, mapFind?, if_neg h, ih]

/-! ## The Face engine state (`face.go`)

One Go `map[chan<- *Data]bool` member set is a `Finset Sink` (a Go map used
as a set: adding is idempotent, deletion removes the key outright).
Observable effects are logged in the state: `wire` is the sequence of
Interests successfully written to the transport, `delivered` the set of
(sink, Data) deliveries, `closed` the set of closed sinks. -/

structure FaceState where
  pit : List (Name × Finset Sink)
  cs : List (Name × Data)
  wire : List Interest
  delivered : Finset (Sink × Data)
  closed : Finset Sink
  deriving DecidableEq

/-- The value `SendInterest` hands back: the returned channel, described by
the Data already buffered in it and whether it has been closed. -/
structure SendResult where
  sinkData : List Data
  sinkClosed : Bool
  deriving DecidableEq

/-- `Face.SendInterest` from `face.go`, lines 76–123: check the Content
Store; on hit return a sink pre-loaded with the cached Data and closed.  On
miss run the PIT transform: when no entry exists, write the Interest to the
transport (`writeErr` is the result `i.WriteTo(this.w)` would produce) and
create the entry with this sink as sole member — a failed write creates no
entry and returns the error; when an entry exists, add the sink to its
member set without touching the transport. -/
def sendInterest (s : FaceState) (i : Interest) (ch : Sink)
    (writeErr : Option String) : FaceState × Except String SendResult :=
  match mapFind? s.cs i.name with
  | some d => (s, .ok { sinkData := [d], sinkClosed := true })
  | none =>
    match mapFind? s.pit i.name with
    | none =>
      match writeErr with
      | some e => (s, .error e)
      | none =>
        ({ s with pit := mapSet s.pit i.name {ch}, wire := s.wire ++ [i] },
         .ok { sinkData := [], sinkClosed := false })
    | some chs =>
      ({ s with pit := mapSet s.pit i.name (insert ch chs) },
       .ok { sinkData := [], sinkClosed := false })

/-- The PIT-expiry transform scheduled by `SendInterest` (`face.go`, lines
103–120): after `i.LifeTime` ms, if the entry still exists and still holds
this sink, close the sink, remove it, and delete the entry when it became
empty; otherwise change nothing. -/
def expire (s : FaceState) (name : Name) (ch : Sink) : FaceState :=
  match mapFind? s.pit name with
  | none => s
  | some m =>
    if ch ∈ m then
      { s with
        pit :=
          if (m.erase ch).card = 0 then mapErase s.pit name
          else mapSet s.pit name (m.erase ch),
        closed := insert ch s.closed }
    else s

/-- `Face.recvData` from `face.go`, lines 125–144: look up the PIT entry
for the Data's Name; when absent do nothing.  Otherwise deliver the Data to
every pending sink and close each, insert the Data into the Content Store
when `FreshnessPeriod > 0` (its timed removal is a separate scheduled
action, outside this transition), and delete the PIT entry. -/
def recvData (s : FaceState) (d : Data) : FaceState :=
  match mapFind? s.pit d.name with
  | none => s
  | some chs =>
    let s1 := { s with
      delivered := s.delivered ∪ chs.image (fun ch => (ch, d)),
      closed := s.closed ∪ chs }
    let s2 :=
      if d.metaInfo.freshnessPeriod > 0 then
        { s1 with cs := mapSet s1.cs d.name d }
      else s1
    { s2 with pit := mapErase s2.pit d.name }

/-! ## Claims C1, C3, C4, C9, C10 -/

/-- Claim C1: on a Content Store miss, `SendInterest` with an existing PIT
entry for the Name adds the new sink to that entry's member set and writes
nothing to the transport; only when no PIT entry exists does it write the
Interest — one wire Interest per unique outstanding Name. -/
theorem c1_request_collapsing (s : FaceState) (i : Interest) (ch : Sink)
    (w : Option String) (hcs : mapFind? s.cs i.name = none) :
    (∀ chs, mapFind? s.pit i.name = some chs →
      (sendInterest s i ch w).1.wire = s.wire ∧
      mapFind? (sendInterest s i ch w).1.pit i.name = some (insert ch chs)) ∧
    (mapFind? s.pit i.name = none → w = none →
      (sendInterest s i ch w).1.wire = s.wire ++ [i] ∧
      mapFind? (sendInterest s i ch w).1.pit i.name = some {ch}) := by
  constructor
  · intro chs hp
    unfold sendInterest
    simp only [hcs, hp]
    exact ⟨by simp, mapFind?_mapSet_self _ _ _⟩
  · intro hp hw
    subst hw
    unfold sendInterest
    simp only [hcs, hp]
    exact ⟨by simp, mapFind?_mapSet_self _ _ _⟩

/-- Fixture for the C1 witness: a Face whose PIT already holds an entry for
the name `/a` with sink 5 pending, and an empty Content Store. -/
def sC1 : FaceState := ⟨[([[97]], {5})], [], [], ∅, ∅⟩

def iC1 : Interest := ⟨[[97]], 4000⟩

/-- Witness for C1: adding sink 7 for `/a` collapses onto the existing
entry. -/
theorem c1_request_collapsing_witness :
    (∀ chs, mapFind? sC1.pit iC1.name = some chs →
      (sendInterest sC1 iC1 7 none).1.wire = sC1.wire ∧
      mapFind? (sendInterest sC1 iC1 7 none).1.pit iC1.name =
        some (insert 7 chs)) ∧
    (mapFind? sC1.pit iC1.name = none → (none : Option String) = none →
      (sendInterest sC1 iC1 7 none).1.wire = sC1.wire ++ [iC1] ∧
      mapFind? (sendInterest sC1 iC1 7 none).1.pit iC1.name = some {7}) :=
  c1_request_collapsing sC1 iC1 7 none (by decide)

/-- Claim C3: a Content Store hit makes `SendInterest` return, with no
error, a sink already holding the cached Data and already closed, while the
whole Face state — PIT, transport log, everything — is left untouched. -/
theorem c3_content_store_hit (s : FaceState) (i : Interest) (ch : Sink)
    (w : Option String) (d : Data) (h : mapFind? s.cs i.name = some d) :
    sendInterest s i ch w = (s, .ok { sinkData := [d], sinkClosed := true }) := by
  unfold sendInterest
  simp only [h]

def dC3 : Data := ⟨[[98]], ⟨0, 5, []⟩, [1]⟩

def sC3 : FaceState := ⟨[], [([[98]], dC3)], [], ∅, ∅⟩

/-- Witness for C3: a cached Data for `/b` is served from the store. -/
theorem c3_content_store_hit_witness :
    sendInterest sC3 ⟨[[98]], 0⟩ 3 none =
      (sC3, .ok { sinkData := [dC3], sinkClosed := true }) :=
  c3_content_store_hit sC3 ⟨[[98]], 0⟩ 3 none dC3 (by decide)

theorem recvData_cs_of_freshness_zero (s : FaceState) (d : Data)
    (h : d.metaInfo.freshnessPeriod = 0) : (recvData s d).cs = s.cs := by
  unfold recvData
  cases hf : mapFind? s.pit d.name with
  | none => rfl
  | some chs => simp [h]

/-- Claim C4: a Data whose `FreshnessPeriod` is 0 never populates the
Content Store — receiving it any number `k` of times leaves the store
unchanged. -/
theorem c4_freshness_zero_not_cached (s : FaceState) (d : Data)
    (h : d.metaInfo.freshnessPeriod = 0) (k : Nat) :
    ((fun st => recvData st d)^[k] s).cs = s.cs := by
  induction k generalizing s with
  | zero => rfl
  | succ k ih =>
      rw [Function.iterate_succ_apply]
      rw [ih (recvData s d), recvData_cs_of_freshness_zero s d h]

def dC4 : Data := ⟨[[97], [98]], ⟨0, 0, []⟩, [1, 2]⟩

def sC4 : FaceState := ⟨[([[97], [98]], {2})], [], [], ∅, ∅⟩

/-- Witness for C4: `/a/b` with freshness 0, received 3 times against a
Face whose PIT awaits it, leaves the store empty. -/
theorem c4_freshness_zero_not_cached_witness :
    ((fun st => recvData st dC4)^[3] sC4).cs = sC4.cs :=
  c4_freshness_zero_not_cached sC4 dC4 (by decide) 3

/-- Claim C9: the expiry action is idempotent — on a state where its sink
is no longer a member of the entry for the Name it returns the state
unchanged, and applying it twice always equals applying it once. -/
theorem c9_expire_idempotent (s : FaceState) (name : Name) (ch : Sink) :
    ((∀ m, mapFind? s.pit name = some m → ch ∉ m) → expire s name ch = s) ∧
    expire (expire s name ch) name ch = expire s name ch := by
  constructor
  · intro h
    unfold expire
    cases hf : mapFind? s.pit name with
    | none => rfl
    | some m => simp [h m hf]
  · cases hf : mapFind? s.pit name with
    | none =>
        have h1 : expire s name ch = s := by unfold expire; simp [hf]
        rw [h1]
        exact h1
    | some m =>
        by_cases hch : ch ∈ m
        · by_cases hcard : (m.erase ch).card = 0
          · have h1 : expire s name ch =
                ⟨mapErase s.pit name, s.cs, s.wire, s.delivered,
                  insert ch s.closed⟩ := by
              unfold expire
              simp [hf, hch, hcard]
            rw [h1]
            unfold expire
            simp [mapFind?_mapErase_self]
          · have h1 : expire s name ch =
                ⟨mapSet s.pit name (m.erase ch), s.cs, s.wire, s.delivered,
                  insert ch s.closed⟩ := by
              unfold expire
              simp only [hf]
              rw [if_pos hch, if_neg hcard]
            rw [h1]
            unfold expire
            simp [mapFind?_mapSet_self, Finset.not_mem_erase]
        · have h1 : expire s name ch = s := by
            unfold expire
            simp [hf, hch]
          rw [h1]
          exact h1

def sC9 : FaceState := ⟨[([[100]], {4})], [], [], ∅, ∅⟩

/-- Witness for C9: sink 9 is not in the `/d` entry, so its expiry action
changes nothing, once or twice. -/
theorem c9_expire_idempotent_witness :
    expire sC9 [[100]] 9 = sC9 ∧
    expire (expire sC9 [[100]] 9) [[100]] 9 = expire sC9 [[100]] 9 := by
  refine ⟨(c9_expire_idempotent sC9 [[100]] 9).1 ?_,
    (c9_expire_idempotent sC9 [[100]] 9).2⟩
  intro m hm
  have h4 : mapFind? sC9.pit [[100]] = some {4} := by decide
  rw [h4] at hm
  cases hm
  decide

/-- Claim C10: only solicited Data is cached — a Data whose Name matches no
PIT entry leaves the Content Store unchanged, whatever its freshness. -/
theorem c10_unsolicited_not_cached (s : FaceState) (d : Data)
    (h : mapFind? s.pit d.name = none) : (recvData s d).cs = s.cs := by
  unfold recvData
  simp [h]

def dC10 : Data := ⟨[[99]], ⟨0, 700, []⟩, [9]⟩

def sC10 : FaceState := ⟨[([[97]], {1})], [], [], ∅, ∅⟩

/-- Witness for C10: unsolicited `/c` Data with freshness 700 is not
cached. -/
theorem c10_unsolicited_not_cached_witness :
    (recvData sC10 dC10).cs = sC10.cs :=
  c10_unsolicited_not_cached sC10 dC10 (by decide)

/-! ## Name component markers and the continuation state machine
(`src/unnamed/part_001`, `Face.dial`)

The Name component operations (`Pop`, `Push`, `Marker`, `Number`) and the
marker constants live in the packet-model file, which is not among the
sources; they are modelled from the spec (§3): a component may carry a
typed numeric marker encoded as a one-byte tag followed by a big-endian
numeric value, and a Name supports "pop last component" and "push
typed-number component". -/

/-- Modelled from the spec: the `Segment` marker byte for a Name
component. -/
def Segment : Nat := 0

/-- Modelled from the spec: the `Offset` marker byte. -/
def Offset : Nat := 251

/-- Modelled from the spec: the `Version` marker byte (recognized by the
packet model but not by the continuation switch). -/
def Version : Nat := 253

/-- Modelled from the spec: the `Sequence` marker byte. -/
def Sequence : Nat := 254

/-- Modelled from the spec: `Name.Pop` removes and returns the last
component; on an empty Name it yields the empty component. -/
def namePop (n : Name) : Name × Component :=
  (n.dropLast, n.getLast?.getD [])

/-- The minimal big-endian byte string denoting `v` (empty for 0). -/
def numBytes : Nat → List Nat
  | 0 => []
  | v + 1 => numBytes ((v + 1) / 256) ++ [(v + 1) % 256]
decreasing_by exact Nat.div_lt_self (Nat.succ_pos v) (by norm_num)

/-- Modelled from the spec: `Name.Push` appends a typed-number component —
one marker byte followed by the big-endian numeric value. -/
def namePush (n : Name) (m v : Nat) : Name :=
  n ++ [m :: numBytes v]

/-- Modelled from the spec: `Component.Marker` returns the leading marker
byte; error on an empty component. -/
def componentMarker (c : Component) : Option Nat :=
  c.head?

/-- Modelled from the spec: `Component.Number` decodes the bytes after the
marker byte as a big-endian integer; error on an empty component. -/
def componentNumber (c : Component) : Option Nat :=
  match c with
  | [] => none
  | _ :: rest => some (beRead rest)

theorem beRead_numBytes (v : Nat) : beRead (numBytes v) = v := by
  induction v using Nat.strong_induction_on with
  | _ v ih =>
      match v with
      | 0 => simp [numBytes, beRead]
      | w + 1 =>
          rw [numBytes, beRead_append_singleton,
            ih ((w + 1) / 256) (Nat.div_lt_self (Nat.succ_pos w) (by norm_num))]
          omega

/-- The outcome of the `case *Data:` arm of the loop in `Face.dial`
(`src/unnamed/part_001`, lines 152–186).  `complete` and `halt` are the
`goto EXIT` paths that send nothing on the `Error` channel — `halt` covers
a failing `Marker()`/`Number()` and the `default:` arm for an unrecognized
marker; `fail e` is the one path of this arm that does send on `Error`
(a failed `WriteTo` of the follow-up Interest); `next i` is a successful
follow-up Interest written to the transport. -/
inductive DialStep where
  | complete : DialStep
  | halt : DialStep
  | fail : String → DialStep
  | next : Interest → DialStep
  deriving DecidableEq

/-- The `case *Data:` arm of `Face.dial`: pop the last Name component;
stop when it equals `FinalBlockId`; otherwise read its marker and number,
advance Segment/Sequence by 1 and Offset by `len(Content)`, push the
advanced component back and write a new Interest (`writeErr` is the result
of that `WriteTo`); any other marker exits the loop. -/
def dialStep (d : Data) (writeErr : Option String) : DialStep :=
  let name := (namePop d.name).1
  let last := (namePop d.name).2
  if d.metaInfo.finalBlockId = last then .complete
  else
    match componentMarker last with
    | none => .halt
    | some m =>
      match componentNumber last with
      | none => .halt
      | some n =>
        if m = Segment ∨ m = Sequence then
          match writeErr with
          | some e => .fail e
          | none => .next ⟨namePush name m (n + 1), 0⟩
        else if m = Offset then
          match writeErr with
          | some e => .fail e
          | none => .next ⟨namePush name m (n + d.content.length), 0⟩
        else .halt

/-! ## Claim C2 -/

/-- Fixture for the C2 counterexample: a Data whose popped component
`[253, 1]` carries the Version marker — recognized by the packet model but
not by the continuation switch — and does not match `FinalBlockId`. -/
def dC2 : Data := ⟨[[97], [253, 1]], ⟨0, 0, [9]⟩, [5]⟩

/-- Claim C2 counterexample: on an unrecognized continuation marker the
code takes the silent `goto EXIT` path (`DialStep.halt`), sending nothing
on the `Error` channel — not the surfaced protocol error the claim
requires. -/
theorem c2_unrecognized_marker_counterexample :
    componentMarker (namePop dC2.name).2 = some Version ∧
    (namePop dC2.name).2 ≠ dC2.metaInfo.finalBlockId ∧
    dialStep dC2 none = DialStep.halt := by
  decide

/-- Claim C2 (amended): after a Data arrives, the popped last component
equal to `FinalBlockId` completes the retrieval with no further Interest;
a Segment or Sequence marker yields a new Interest whose last component
carries the same marker with the value incremented by exactly 1; an Offset
marker increments by `len(Content)`; any other or unrecognized marker halts
the continuation silently — no further Interest and nothing on the Error
channel. -/
theorem c2_dial_continuation (d : Data) :
    ((namePop d.name).2 = d.metaInfo.finalBlockId →
      dialStep d none = .complete) ∧
    (∀ m n, (namePop d.name).2 ≠ d.metaInfo.finalBlockId →
      componentMarker (namePop d.name).2 = some m →
      componentNumber (namePop d.name).2 = some n →
      ((m = Segment ∨ m = Sequence →
        dialStep d none = .next ⟨namePush (namePop d.name).1 m (n + 1), 0⟩ ∧
        componentMarker (m :: numBytes (n + 1)) = some m ∧
        componentNumber (m :: numBytes (n + 1)) = some (n + 1)) ∧
      (m = Offset →
        dialStep d none =
          .next ⟨namePush (namePop d.name).1 m (n + d.content.length), 0⟩ ∧
        componentNumber (m :: numBytes (n + d.content.length)) =
          some (n + d.content.length)) ∧
      (m ≠ Segment → m ≠ Sequence → m ≠ Offset →
        dialStep d none = .halt))) := by
  constructor
  · intro h
    unfold dialStep
    rw [if_pos h.symm]
  · intro m n hne hm hn
    have hfb : ¬ d.metaInfo.finalBlockId = (namePop d.name).2 :=
      fun h => hne h.symm
    refine ⟨?_, ?_, ?_⟩
    · intro hseg
      refine ⟨?_, rfl, ?_⟩
      · unfold dialStep
        rw [if_neg hfb]
        simp only [hm, hn]
        rw [if_pos hseg]
      · simp [componentNumber, beRead_numBytes]
    · intro hoff
      have hns : ¬ (m = Segment ∨ m = Sequence) := by
        rw [hoff]
        decide
      refine ⟨?_, ?_⟩
      · unfold dialStep
        rw [if_neg hfb]
        simp only [hm, hn]
        rw [if_neg hns, if_pos hoff]
      · simp [componentNumber, beRead_numBytes]
    · intro h1 h2 h3
      unfold dialStep
      rw [if_neg hfb]
      simp only [hm, hn]
      rw [if_neg (by tauto), if_neg h3]

/-- Fixture for the C2 witness: a Data whose popped component `[0, 3]`
carries the Segment marker with value 3. -/
def dC2w : Data := ⟨[[97], [0, 3]], ⟨0, 0, [9]⟩, [5, 5]⟩

/-- Witness for the amended C2: segment 3 of `/a` advances to a new
Interest whose last component is Segment 4. -/
theorem c2_dial_continuation_witness :
    dialStep dC2w none = .next ⟨namePush [[97]] 0 4, 0⟩ ∧
    componentMarker (0 :: numBytes 4) = some 0 ∧
    componentNumber (0 :: numBytes 4) = some 4 :=
  (((c2_dial_continuation dC2w).2 0 3 (by decide) (by decide)
    (by decide)).1 (Or.inl rfl))

/-! ## The key subsystem (`src/unnamed/part_000`, second file:
`DecodePublicKey` / `sign` / `Verify`)

`Key.PrivateKey` holds a `crypto.PrivateKey` whose dynamic type drives
every `switch key := this.PrivateKey.(type)` in the source; the crypto and
ASN.1 primitives of the Go standard library are abstracted.  `KeyMaterial`
records that dynamic type together with whether the private exponent is
actually populated — `DecodePublicKey` stores `&rsa.PrivateKey{PublicKey:
*key}` (resp. ECDSA), a private-key struct carrying only public
material. -/

inductive KeyMaterial where
  | rsa (hasPrivate : Bool)
  | ecdsa (hasPrivate : Bool)
  | uninitialized
  deriving DecidableEq

/-- The public-key info found in a certificate body, as the ASN.1 layer
classifies it. -/
inductive CertPublicKeyInfo where
  | rsaPub
  | ecdsaPub
  | otherPub
  | malformed
  deriving DecidableEq

/-- `Key.DecodePublicKey` (lines 392–415): unmarshal the certificate body,
parse the PKIX public key, and wrap it in a `*rsa.PrivateKey` /
`*ecdsa.PrivateKey` holding only the public half (no private exponent);
any other key type is the unsupported-key-type error. -/
def DecodePublicKey : CertPublicKeyInfo → Except String KeyMaterial
  | .rsaPub => .ok (.rsa false)
  | .ecdsaPub => .ok (.ecdsa false)
  | .otherPub => .error "unsupported key type"
  | .malformed => .error "asn1: structural error"

/-- Where `Key.sign`'s type switch lands: `rsaSign h` / `ecdsaSign h` mean
the branch calling `rsa.SignPKCS1v15` / `ecdsa.Sign` was entered with a key
whose private exponent is populated iff `h`; `unsupported` is the
`default:` branch returning the unsupported-key-type error.  Entering an
`rsaSign false` / `ecdsaSign false` branch dereferences a nil private
exponent inside the crypto library — a runtime panic, not an error
return. -/
inductive SignOutcome where
  | rsaSign (hasPrivate : Bool)
  | ecdsaSign (hasPrivate : Bool)
  | unsupported
  deriving DecidableEq

/-- `Key.sign` (lines 421–436): dispatch on the dynamic type of
`PrivateKey` only — the switch cannot see whether private material is
present. -/
def keySign : KeyMaterial → SignOutcome
  | .rsa h => .rsaSign h
  | .ecdsa h => .ecdsaSign h
  | .uninitialized => .unsupported

/-- `Key.Verify` (lines 438–456): dispatch on the dynamic type of
`PrivateKey` and check the signature against the embedded public key;
`rsaOk` / `ecdsaOk` stand for the verdicts of `rsa.VerifyPKCS1v15` /
(ASN.1 parse plus) `ecdsa.Verify` on the given digest/signature pair. -/
def keyVerify (k : KeyMaterial) (rsaOk ecdsaOk : Bool) :
    Except String Unit :=
  match k with
  | .rsa _ => if rsaOk then .ok () else .error "crypto/rsa: verification error"
  | .ecdsa _ =>
    if ecdsaOk then .ok () else .error "crypto/ecdsa: verification error"
  | .uninitialized => .error "unsupported key type"

/-! ## Claim C8 -/

/-- Claim C8, evaluated at the failing input: a Key built by
`DecodePublicKey` from an RSA certificate body carries `.rsa false`
(public material wrapped in a private-key struct), so `sign`'s type switch
enters the RSA signing branch — with no private exponent — instead of
returning the unsupported-key-type error the claim requires, while
`Verify` on the same Key succeeds for a valid digest/signature pair. -/
theorem c8_sign_public_only_key :
    DecodePublicKey .rsaPub = .ok (.rsa false) ∧
    keySign (.rsa false) = .rsaSign false ∧
    keySign (.rsa false) ≠ .unsupported ∧
    keyVerify (.rsa false) true true = .ok () :=
  ⟨rfl, rfl, by decide, rfl⟩

end NdnProof
